import Mathlib

/-!
Verification development for the phishing-detector quiz game
(`src/app.py`, class `AdvancedPhishGame`).  The Python source is shallowly
embedded: pure helpers become Lean functions, the Tk-driven session becomes an
explicit state record `GState` with a step function over an event alphabet
`Ev`.  Wall-clock time is modelled as a rational number of seconds; the
Tk `after(1000, …)` callback is modelled as an optional scheduled deadline.
UI-only statements (labels, chips, highlighting, message boxes) have no state
effect and are dropped; every state-bearing line of the source is translated.
-/

namespace PhishGame

/-! ## difflib.SequenceMatcher (no junk: `SequenceMatcher(None, a, b)`)

`fuzzy_match` (src/app.py lines 133-159) calls
`difflib.SequenceMatcher(None, u, w).ratio()`.  The second operand `b` is
always a token or token word (far shorter than the 200-character autojunk
threshold), so the junk machinery is inert and `find_longest_match` reduces to
the plain dynamic program below.  `ratio()` is `2*M/(len a + len b)` as an
IEEE double compared against the literals `0.78` / `0.72`; for the string
lengths reachable here (well below 2^40) that comparison coincides exactly
with the rational comparison `200*M ≥ thresh*(len a + len b)`, which is how
the thresholds are embedded. -/

/-- Result of `find_longest_match`: block start in `a`, start in `b`, size. -/
structure FLM where
  besti : Nat
  bestj : Nat
  bestsize : Nat
deriving DecidableEq

/-- Python `j2len.get(j, 0)` on the previous-row association list. -/
def j2get (j2len : List (Nat × Nat)) (j : Nat) : Nat :=
  match j2len.find? (fun p => p.1 == j) with
  | some p => p.2
  | none => 0

/-- One row (`for i in range(alo, ahi)`) of `find_longest_match`: positions of
`c = a[i]` inside `b[blo:bhi]` are scanned in ascending order, chain lengths
are extended from the previous row, and the best block is updated on a
strictly greater size (difflib's tie-break: earliest `i`, then earliest `j`). -/
def flm_row (b : List Char) (blo bhi : Nat) (c : Char) (i : Nat)
    (j2len : List (Nat × Nat)) (best : FLM) : List (Nat × Nat) × FLM :=
  let js := (List.range b.length).filter
    (fun j => decide (blo ≤ j) && decide (j < bhi) && (b.get? j == some c))
  let newj2len := js.map (fun j => (j, (if j == 0 then 0 else j2get j2len (j - 1)) + 1))
  let best := newj2len.foldl
    (fun bst jk => if jk.2 > bst.bestsize then ⟨i + 1 - jk.2, jk.1 + 1 - jk.2, jk.2⟩ else bst)
    best
  (newj2len, best)

/-- The difflib `SequenceMatcher.find_longest_match(alo, ahi, blo, bhi)` without junk.
(The trailing junk-extension loops of difflib are inert when no character is
junk: the chained `j2len` counts already record maximal runs.) -/
def find_longest_match (a b : List Char) (alo ahi blo bhi : Nat) : FLM :=
  ((List.range' alo (ahi - alo)).foldl
    (fun acc i => flm_row b blo bhi (a.getD i ' ') i acc.1 acc.2)
    ([], ⟨alo, blo, 0⟩)).2

/-- Total size of all matching blocks (`sum(triple[-1] for triple in
get_matching_blocks())`), by the same recursive decomposition difflib uses.
`fuel` bounds the recursion depth; every recursive call strictly shrinks the
interval pair, so `a.length + b.length + 1` is always sufficient at top level. -/
def matchBlocksTotal (a b : List Char) : Nat → Nat → Nat → Nat → Nat → Nat
  | 0, _, _, _, _ => 0
  | fuel + 1, alo, ahi, blo, bhi =>
    let m := find_longest_match a b alo ahi blo bhi
    if m.bestsize == 0 then 0
    else
      matchBlocksTotal a b fuel alo m.besti blo m.bestj
        + m.bestsize
        + matchBlocksTotal a b fuel (m.besti + m.bestsize) ahi (m.bestj + m.bestsize) bhi

/-- Numerator `M` of `SequenceMatcher.ratio() = 2*M/(len a + len b)`. -/
def ratio_num (a b : List Char) : Nat :=
  matchBlocksTotal a b (a.length + b.length + 1) 0 a.length 0 b.length

/-- Whether `SequenceMatcher(None, a, b).ratio() >= thresh/100`, as the exact rational
comparison (difflib returns `1.0` when both sequences are empty). -/
def ratio_ge (a b : List Char) (thresh : Nat) : Bool :=
  if a.length + b.length == 0 then true
  else 200 * ratio_num a b ≥ thresh * (a.length + b.length)

/-! ## fuzzy_match (src/app.py lines 133-159) -/

/-- Python substring containment `needle in hay` (note: the empty string is a
substring of every string). -/
def strContains (hay needle : List Char) : Bool :=
  (List.range (hay.length + 1)).any (fun i => needle.isPrefixOf (hay.drop i))

/-- Python `t.split()`: split on whitespace, discarding empty pieces. -/
def wordsOf (t : String) : List String :=
  (t.split (fun c => c.isWhitespace)).filter (fun w => w ≠ "")

/-- The function `fuzzy_match(user_input, token)` from src/app.py lines 133-159.
Note the emptiness guard (`if not user_input or not token`) tests the *raw*
strings; lowering and trimming happen afterwards. -/
def fuzzy_match (user_input token : String) : Bool :=
  if user_input = "" || token = "" then false
  else
    let u := user_input.toLower.trim
    let t := token.toLower.trim
    if u == t || strContains t.toList u.toList || strContains u.toList t.toList then true
    else if (wordsOf t).any (fun w => decide (w.length > 2) && ratio_ge u.toList w.toList 78)
      then true
    else ratio_ge u.toList t.toList 72

/-! ## Data model (src/app.py lines 38-108 and 165-184) -/

/-- One entry of the `EMAILS` template list: `title`, `text`, ordered `flags`. -/
structure Email where
  title : String
  text : String
  flags : List String
deriving DecidableEq

/-- One entry of `self.results` (src/app.py lines 423-429). -/
structure LevelResult where
  title : String
  text : String
  found : List String
  missed : List String
  skipped : Bool
deriving DecidableEq

/-- The mutable state of `AdvancedPhishGame` (src/app.py lines 172-183), plus
the ambient wall clock `now : ℚ` (`time.time()`, with the session start as
epoch 0) and the pending Tk `after` callback as its scheduled firing time
`deadline` (`self.timer_id`; `None` ↦ `none`).  `game_over` records that
`finish_game` ran (the summary window took over); it is written, never read. -/
structure GState where
  all_emails : List Email
  total_levels : Nat
  current_level : Nat
  score : Int
  lives : Int
  flags_found : List String
  results : List LevelResult
  start_time : ℚ
  paused : Bool
  deadline : Option ℚ
  time_left : Int
  pb_max : Int
  now : ℚ
  game_over : Bool
deriving DecidableEq

/-- Constant `BASE_TIME` (src/app.py line 31). -/
def BASE_TIME : Int := 40

/-- Constant `HINT_COST_BASE` (line 32). -/
def HINT_COST_BASE : Int := 6

/-- Constant `BONUS_PERFECT` (line 33). -/
def BONUS_PERFECT : Int := 15

/-- Method `stop_timer` (lines 375-378): cancel the pending callback. -/
def stop_timer (s : GState) : GState := { s with deadline := none }

/-- Method `finish_game` (lines 465-477): stop the timer and hand over to the
summary window (UI); `game_over` marks the transition. -/
def finish_game (s : GState) : GState :=
  { stop_timer s with game_over := true }

/-- The per-level time limit `max(10, BASE_TIME - level*6)` (lines 288-289). -/
def level_time (idx : Nat) : Int := max 10 (BASE_TIME - (idx : Int) * 6)

/-- The matching loop of `on_submit` (lines 307-312): iterate the template's
flags in authoring order, `continue` past flags already in `flags_found`,
and `break` on the first remaining flag that fuzzy-matches. -/
def loop_match (flags_found : List String) (user_text : String) :
    List String → Option String
  | [] => none
  | f :: rest =>
    if f ∈ flags_found then loop_match flags_found user_text rest
    else if fuzzy_match user_text f then some f
    else loop_match flags_found user_text rest

/-- Source line `elapsed = time.time() - self.start_time` (line 321). -/
def elapsed (s : GState) : ℚ := s.now - s.start_time

/-- Source line `speed_bonus = max(0, int((self.pb['maximum'] - elapsed) // 3))`
(line 322; float floor division embedded as the exact rational floor). -/
def speed_bonus (s : GState) : Int :=
  max 0 (Int.floor (((s.pb_max : ℚ) - elapsed s) / 3))

/-- Source line `gained = 10 + speed_bonus` (line 323). -/
def gained (s : GState) : Int := 10 + speed_bonus s

/-! ### The timer / level-advance knot

In the source, `_tick → on_time_up → save_result_and_continue → load_level →
start_timer → _tick` is a call cycle.  Semantically its depth is at most two:
`load_level` always sets `time_left ≥ 10 > 0`, so the restarted tick takes the
decrement branch.  The cycle is broken by parameterising each function over
the time-expiry handler and tying the knot with fuel (`timeUpF`); the fuel is
consumed only when a nested expiry actually happens, so with fuel ≥ 2 the
embedding agrees with the source on every reachable state. -/

/-- The `_tick` body (lines 363-373), parameterised by the `on_time_up` handler.
The scheduled repetition `root.after(1000, self._tick)` becomes
`deadline := now + 1`. -/
def tick_go (handler : GState → GState) (s : GState) : GState :=
  if s.paused then s
  else if s.time_left ≤ 0 then handler s
  else { s with time_left := s.time_left - 1, deadline := some (s.now + 1) }

/-- Method `start_timer` (lines 359-361): cancel any pending callback, tick once. -/
def start_timer_go (handler : GState → GState) (s : GState) : GState :=
  tick_go handler (stop_timer s)

/-- Method `load_level` (lines 263-294).  `current_level := idx` happens before the
out-of-levels check; UI statements (text widget, chips, labels) are dropped;
`pb['maximum']` and `time_left` are both set to `level_time idx`;
`start_time := time.time()` and the timer restarts. -/
def load_level_go (handler : GState → GState) (idx : Nat) (s : GState) : GState :=
  let s := { s with current_level := idx }
  if s.total_levels ≤ idx then finish_game s
  else
    let s := { s with
      flags_found := [],
      time_left := level_time idx,
      pb_max := level_time idx,
      start_time := s.now }
    start_timer_go handler s

/-- Method `save_result_and_continue` (lines 419-439).  The template lookup happens
before any mutation, so an out-of-range `current_level` (impossible in a run
of the shipped program) is a state-preserving aborted callback. -/
def saveCont (handler : GState → GState) (skipped : Bool) (s : GState) : GState :=
  match s.all_emails.get? s.current_level with
  | none => s
  | some current =>
    let missed := current.flags.filter (fun f => decide (f ∉ s.flags_found))
    let s := { s with results := s.results ++
      [⟨current.title, current.text, s.flags_found, missed, skipped⟩] }
    let s := stop_timer s
    if s.lives ≤ 0 then finish_game s
    else if s.total_levels ≤ s.current_level + 1 then finish_game s
    else load_level_go handler (s.current_level + 1) s

/-- Method `on_time_up` (lines 384-390) parameterised by the handler used for any
nested expiry: decrement `lives`, record the skipped result, continue. -/
def on_time_up_go (handler : GState → GState) (s : GState) : GState :=
  saveCont handler true { s with lives := s.lives - 1 }

/-- Fuel-indexed expiry handler tying the knot; `timeUpF (f+1)` is
`on_time_up` with nested expiries handled up to depth `f`. -/
def timeUpF : Nat → GState → GState
  | 0, s => s
  | f + 1, s => on_time_up_go (timeUpF f) s

/-- Method `on_time_up` (lines 384-390). -/
def on_time_up : GState → GState := timeUpF 4

/-- Method `save_result_and_continue` (lines 419-439). -/
def save_result_and_continue (skipped : Bool) : GState → GState :=
  saveCont (timeUpF 3) skipped

/-- Method `load_level` (lines 263-294). -/
def load_level (idx : Nat) : GState → GState := load_level_go (timeUpF 3) idx

/-- Method `start_timer` (lines 359-361). -/
def start_timer : GState → GState := start_timer_go (timeUpF 3)

/-- Method `_tick` (lines 363-373); its expiry branch is exactly `on_time_up`. -/
def tick : GState → GState := tick_go on_time_up

/-- Method `on_submit` (lines 296-340).  The entry widget is read and cleared (UI);
the guess is stripped; an empty guess is ignored; a match appends the flag,
awards `gained`, and on completing the flag set adds `BONUS_PERFECT` and stops
the timer; a miss costs `max(0, score - 3)`. -/
def on_submit (text : String) (s : GState) : GState :=
  if s.paused then s
  else
    let user_text := text.trim
    if user_text = "" then s
    else
      match s.all_emails.get? s.current_level with
      | none => s
      | some email =>
        match loop_match s.flags_found user_text email.flags with
        | some matched_flag =>
          let s := { s with flags_found := s.flags_found ++ [matched_flag] }
          let s := { s with score := s.score + gained s }
          if s.flags_found.length = email.flags.length then
            stop_timer { s with score := s.score + BONUS_PERFECT }
          else s
        | none => { s with score := max 0 (s.score - 3) }

/-- The unfound flags of the current level (`remaining`, line 397). -/
def remaining_flags (s : GState) : List String :=
  match s.all_emails.get? s.current_level with
  | none => []
  | some email => email.flags.filter (fun f => decide (f ∉ s.flags_found))

/-- The flag `use_hint` reveals: `random.choice(remaining)` with the RNG
injected as an index `choice` (reduced mod the number of candidates). -/
def hint_token (choice : Nat) (s : GState) : Option String :=
  (remaining_flags s).get? (choice % (remaining_flags s).length)

/-- Method `use_hint` (lines 393-412).  With nothing left to hint it only shows a
message (state unchanged); otherwise it charges `min(20, 6 + level*3)` with a
floor at 0.  The hint is displayed, *not* added to `flags_found`. -/
def use_hint (choice : Nat) (s : GState) : GState :=
  if s.paused then s
  else
    match s.all_emails.get? s.current_level with
    | none => s
    | some email =>
      let remaining := email.flags.filter (fun f => decide (f ∉ s.flags_found))
      if remaining = [] then s
      else
        let cost : Int := min 20 (HINT_COST_BASE + (s.current_level : Int) * 3)
        { s with score := max 0 (s.score - cost) }

/-- Method `next_level` (lines 414-417). -/
def next_level (s : GState) : GState :=
  if s.paused then s else save_result_and_continue false s

/-- Method `toggle_pause` (lines 442-452): resuming restarts the timer (which ticks
immediately), pausing cancels it. -/
def toggle_pause (s : GState) : GState :=
  if s.paused then start_timer { s with paused := false }
  else stop_timer { s with paused := true }

/-- Method `restart_game` (lines 454-462), with the confirmation dialog answered yes
and `random.shuffle` injected as the permuted list `shuffled` (a
non-permutation is rejected, leaving the order unchanged).  Note: `paused` is
*not* reset. -/
def restart_game (shuffled : List Email) (s : GState) : GState :=
  let order := if List.Perm shuffled s.all_emails then shuffled else s.all_emails
  let s := { s with score := 0, lives := 3, current_level := 0, results := [],
                    all_emails := order }
  load_level 0 s

/-- Constructor `__init__` (lines 166-186): `random.sample(EMAILS, k=min(len(EMAILS), 6))`
is injected as `sampled`; `total_levels = min(5, len(all_emails))`; UI is
built; the first level loads.  The wall clock starts at 0. -/
def initGame (sampled : List Email) : GState :=
  let s : GState := {
    all_emails := sampled,
    total_levels := min 5 sampled.length,
    current_level := 0,
    score := 0,
    lives := 3,
    flags_found := [],
    results := [],
    start_time := 0,
    paused := false,
    deadline := none,
    time_left := BASE_TIME,
    pb_max := BASE_TIME,
    now := 0,
    game_over := false }
  load_level 0 s

/-! ### Timed event semantics

Player operations are instantaneous callbacks; the only scheduled callback is
the 1-second tick.  `fireDue` advances the wall clock to `target`, firing each
due tick at its scheduled instant (ticks reschedule at +1 s, so the fuel
`⌈duration⌉ + 2` always covers every due tick). -/

/-- Advance the clock to `target`, firing due ticks in order. -/
def fireDue : Nat → ℚ → GState → GState
  | 0, target, s => { s with now := target }
  | fuel + 1, target, s =>
    match s.deadline with
    | none => { s with now := target }
    | some d =>
      if d ≤ target then fireDue fuel target (tick { s with now := d, deadline := none })
      else { s with now := target }

/-- Let `dur` seconds of wall-clock time pass. -/
def waitFn (dur : ℚ) (s : GState) : GState :=
  if dur < 0 then s
  else fireDue ((Int.ceil dur).toNat + 2) (s.now + dur) s

/-- The event alphabet: time passing and the player-facing operations. -/
inductive Ev where
  | wait (dur : ℚ)
  | submit (text : String)
  | hint (choice : Nat)
  | next
  | pauseToggle
  | restart (shuffled : List Email)
deriving DecidableEq

/-- One event step. -/
def stepEv (s : GState) (e : Ev) : GState :=
  match e with
  | .wait dur => waitFn dur s
  | .submit text => on_submit text s
  | .hint choice => use_hint choice s
  | .next => next_level s
  | .pauseToggle => toggle_pause s
  | .restart shuffled => restart_game shuffled s

/-- Run a whole event sequence. -/
def runEvents (s : GState) (evs : List Ev) : GState := evs.foldl stepEv s

/-! ## The shipped template corpus `EMAILS` (src/app.py lines 38-108) -/

/-- Template 0, "Bank Security Notice". -/
def EMAIL0 : Email :=
  { title := "Bank Security Notice",
    text := "Dear Customer,\n\nWe detected unusual activity on your account. Please verify your account immediately by clicking:\nhttp://secure-bank.verify-account.xyz/confirm\n\nFailure to do so will result in account suspension.\n\nSincerely,\nSecure Bank Support",
    flags := ["verify", "verify-account", ".xyz", "http://", "suspension", "Dear Customer"] }

/-- Template 1, "Password Reset (IT)". -/
def EMAIL1 : Email :=
  { title := "Password Reset (IT)",
    text := "Hello John,\n\nOur system requires you to reset your password due to a security update.\nClick here to reset: https://company-it-reset.secure-now.net/reset?user=john\n\nIf you didn't request this, reply with your username and password.\n\n-- IT Helpdesk",
    flags := ["reset", "company-it-reset", "secure-now.net", "reply with your username", "password"] }

/-- Template 2, "PayPal Account Change". -/
def EMAIL2 : Email :=
  { title := "PayPal Account Change",
    text := "Hi,\n\nWe updated your account details. To view changes, go to:\nhttp://paypal.com-security.info/view\n\nNote: This link will expire in 24 hours.\n\nRegards,\nPayPal Security Team",
    flags := ["paypal", "paypal.com-security.info", "expire", "24 hours", "link"] }

/-- Template 3, "Unauthorized Login Alert" (the body's curly apostrophe is
mojibake in the source file and is transcribed as it appears there). -/
def EMAIL3 : Email :=
  { title := "Unauthorized Login Alert",
    text := "ATTENTION!\n\nWe detected unauthorized login from Russia.\nIf this wasnâ€™t you, confirm immediately: http://secure-login-warning.com\nFailure to act may result in account lock.",
    flags := ["Russia", "unauthorized", "secure-login-warning.com", "confirm immediately", "account lock"] }

/-- Template 4, "Prize / Payment Request". -/
def EMAIL4 : Email :=
  { title := "Prize / Payment Request",
    text := "Congratulations!\n\nYou are the lucky winner of a $1000 Amazon gift card.\nPlease enter your credit card details here: http://amazon-prize-free.net\n\nDonâ€™t miss this chance!",
    flags := ["$1000", "credit card", "amazon-prize-free.net", "winner", "enter your credit card"] }

/-- Template 5, "Fake Invoice". -/
def EMAIL5 : Email :=
  { title := "Fake Invoice",
    text := "Hello,\n\nPlease find attached invoice INV-9923. Open the attachment to view it: INV_9923.exe\n\nIf you have questions contact accounts@payroll.example\n\nRegards.",
    flags := ["INV-9923", "INV_9923.exe", ".exe", "accounts@", "invoice"] }

/-- The full corpus in authoring order (one admissible outcome of
`random.sample(EMAILS, k=6)`). -/
def EMAILS : List Email := [EMAIL0, EMAIL1, EMAIL2, EMAIL3, EMAIL4, EMAIL5]

/-! ## Concrete scenario states used by counterexamples and witnesses -/

/-- Pause immediately, stay paused for 9 s, resume, let another half second
pass.  The level-0 countdown was frozen during the pause, so `time_left = 38`
(one tick at load, one at resume) while the wall clock reads 9.5 s. -/
def c1pre : GState :=
  runEvents (initGame EMAILS) [.pauseToggle, .wait 9, .pauseToggle, .wait (mkRat 1 2)]

/-- Find one flag at once, then let the clock run the level-0 countdown down
to `time_left = 0` (the expiry tick is still pending), then pause. -/
def c9pre : GState :=
  runEvents (initGame EMAILS) [.submit "verify", .wait (mkRat 157 4), .pauseToggle]

/-- Solve all six flags of level 0 immediately: the perfect bonus fires and
the timer stops. -/
def c10solved : GState :=
  runEvents (initGame EMAILS) [.submit "verify", .submit "verify-account",
    .submit ".xyz", .submit "http://", .submit "suspension", .submit "Dear Customer"]

/-- Pause and immediately resume the fully solved level. -/
def c10resumed : GState := runEvents c10solved [.pauseToggle, .pauseToggle]

/-- Let 45 s pass after the resume. -/
def c10expired : GState := runEvents c10resumed [.wait 45]

/-- A mid-level state on template 0 with five of the six flags found,
used to witness the perfect-bonus claim. -/
def c4state : GState :=
  { all_emails := [EMAIL0], total_levels := 1, current_level := 0,
    score := 100, lives := 3,
    flags_found := ["verify", "verify-account", ".xyz", "http://", "suspension"],
    results := [], start_time := 0, paused := false, deadline := some 6,
    time_left := 34, pb_max := 40, now := mkRat 11 2, game_over := false }

/-- The session invariant: the score is never negative and the current level
index never exceeds the total number of levels. -/
def GInv (s : GState) : Prop := 0 ≤ s.score ∧ s.current_level ≤ s.total_levels

/-- A state transformer that preserves the invariant and the level count. -/
def Pres (g : GState → GState) : Prop :=
  ∀ s, GInv s → GInv (g s) ∧ (g s).total_levels = s.total_levels

/-! ## Helper lemmas -/

/-- An empty (post-strip) guess never fuzzy-matches: the raw-empty guard. -/
theorem fuzzy_match_empty_left (t : String) : fuzzy_match "" t = false := by
  unfold fuzzy_match
  simp

/-- An empty token never fuzzy-matches. -/
theorem fuzzy_match_empty_right (g : String) : fuzzy_match g "" = false := by
  unfold fuzzy_match
  simp

/-- The empty list is a Python-substring of every list. -/
theorem strContains_nil (l : List Char) : strContains l [] = true := by
  unfold strContains
  have h0 : 0 ∈ List.range (l.length + 1) := by
    simp
  refine List.any_eq_true.mpr ⟨0, h0, ?_⟩
  cases l <;> rfl

/-- Function `loop_match` with an empty guess finds nothing. -/
theorem loop_match_empty_text (found : List String) (flags : List String) :
    loop_match found "" flags = none := by
  induction flags with
  | nil => rfl
  | cons f rest ih =>
    unfold loop_match
    by_cases hf : f ∈ found
    · simp [hf, ih]
    · simp [hf, fuzzy_match_empty_left, ih]

/-- Function `loop_match` is `List.find?` of "not yet found and fuzzy-matching". -/
theorem loop_match_eq_find (found : List String) (text : String) (flags : List String) :
    loop_match found text flags =
      flags.find? (fun f => decide (f ∉ found) && fuzzy_match text f) := by
  induction flags with
  | nil => rfl
  | cons f rest ih =>
    unfold loop_match
    by_cases hf : f ∈ found
    · simp [hf, List.find?, ih]
    · by_cases hz : fuzzy_match text f
      · simp [hf, hz, List.find?]
      · simp [hf, hz, List.find?, ih]

/-- What a successful `loop_match` guarantees about the matched flag. -/
theorem loop_match_some (found : List String) (text : String) (flags : List String)
    (f : String) (h : loop_match found text flags = some f) :
    f ∈ flags ∧ f ∉ found ∧ fuzzy_match text f = true := by
  induction flags with
  | nil => exact absurd h (by simp [loop_match])
  | cons g rest ih =>
    unfold loop_match at h
    by_cases hg : g ∈ found
    · simp only [hg, if_true] at h
      obtain ⟨h1, h2, h3⟩ := ih h
      exact ⟨List.mem_cons_of_mem _ h1, h2, h3⟩
    · by_cases hz : fuzzy_match text g
      · simp only [hg, hz, if_false, if_true] at h
        cases h
        exact ⟨List.mem_cons_self _ _, hg, hz⟩
      · simp only [hg, hz, if_false] at h
        obtain ⟨h1, h2, h3⟩ := ih h
        exact ⟨List.mem_cons_of_mem _ h1, h2, h3⟩

/-- A flag set that is entirely found yields no match. -/
theorem loop_match_none_of_all_found (found : List String) (text : String)
    (flags : List String) (h : ∀ f ∈ flags, f ∈ found) :
    loop_match found text flags = none := by
  induction flags with
  | nil => rfl
  | cons g rest ih =>
    unfold loop_match
    have hg : g ∈ found := h g (List.mem_cons_self _ _)
    simp only [hg, if_true]
    exact ih (fun f hf => h f (List.mem_cons_of_mem _ hf))

/-- The level time limit is at least 10 seconds. -/
theorem level_time_pos (idx : Nat) : 0 < level_time idx := by
  unfold level_time
  have := le_max_left (10 : Int) (BASE_TIME - (idx : Int) * 6)
  omega

/-- Full characterization of `load_level_go`: either it finishes the game
(out of levels), or it resets the level; the restarted tick decrements
immediately unless paused (the expiry handler is unreachable because the fresh
`time_left` is positive). -/
theorem load_go_eq (handler : GState → GState) (idx : Nat) (s : GState) :
    load_level_go handler idx s =
      if s.total_levels ≤ idx then finish_game { s with current_level := idx }
      else if s.paused then
        { s with current_level := idx, flags_found := [],
                 time_left := level_time idx, pb_max := level_time idx,
                 start_time := s.now, deadline := none }
      else
        { s with current_level := idx, flags_found := [],
                 time_left := level_time idx - 1, pb_max := level_time idx,
                 start_time := s.now, deadline := some (s.now + 1) } := by
  unfold load_level_go start_timer_go tick_go stop_timer
  by_cases h1 : s.total_levels ≤ idx
  · simp [h1]
  · by_cases h2 : s.paused
    · simp [h1, h2]
    · have h3 : ¬ (level_time idx ≤ (0 : Int)) := by
        have := level_time_pos idx
        omega
      simp [h1, h2, h3]

/-! ### Characterizations of the player operations -/

/-- A guess while paused is a silent no-op. -/
theorem on_submit_paused (text : String) (s : GState) (hp : s.paused = true) :
    on_submit text s = s := by
  unfold on_submit
  simp [hp]

/-- A blank (post-strip) guess is a silent no-op. -/
theorem on_submit_blank (text : String) (s : GState) (hp : s.paused = false)
    (ht : text.trim = "") : on_submit text s = s := by
  unfold on_submit
  simp [hp, ht]

/-- A successful guess: the flag is appended, `gained` is added, and — exactly
when the appended list reaches the template's flag count — the perfect bonus
is added and the timer stops. -/
theorem on_submit_matched (text : String) (s : GState) (em : Email) (f : String)
    (hp : s.paused = false) (ht : ¬ text.trim = "")
    (hem : s.all_emails.get? s.current_level = some em)
    (hm : loop_match s.flags_found text.trim em.flags = some f) :
    on_submit text s =
      if s.flags_found.length + 1 = em.flags.length then
        { s with flags_found := s.flags_found ++ [f],
                 score := s.score + gained s + BONUS_PERFECT,
                 deadline := none }
      else
        { s with flags_found := s.flags_found ++ [f],
                 score := s.score + gained s } := by
  unfold on_submit
  simp only [hp, ht, hem, hm, Bool.false_eq_true, if_false, if_neg ht]
  have hlen : (s.flags_found ++ [f]).length = s.flags_found.length + 1 := by
    simp
  have hg : gained { s with flags_found := s.flags_found ++ [f] } = gained s := rfl
  by_cases hc : s.flags_found.length + 1 = em.flags.length
  · simp only [hlen, hc, if_pos rfl, stop_timer, hg]
    simp only [hc, if_true, if_pos rfl]
    rfl
  · simp only [hlen, hg]
    simp only [hc, if_false, if_neg hc]
    rfl

/-- A wrong guess: `score = max(0, score - 3)`, nothing else changes. -/
theorem on_submit_wrong (text : String) (s : GState) (em : Email)
    (hp : s.paused = false) (ht : ¬ text.trim = "")
    (hem : s.all_emails.get? s.current_level = some em)
    (hm : loop_match s.flags_found text.trim em.flags = none) :
    on_submit text s = { s with score := max 0 (s.score - 3) } := by
  have hem' : s.all_emails[s.current_level]? = some em := by
    rw [← List.get?_eq_getElem?]; exact hem
  unfold on_submit
  simp [hp, ht, hem, hem', hm]

/-- Guess with an out-of-range level (never reachable in a shipped run):
the aborted callback leaves the state unchanged. -/
theorem on_submit_noemail (text : String) (s : GState)
    (hp : s.paused = false) (ht : ¬ text.trim = "")
    (hget : s.all_emails.get? s.current_level = none) :
    on_submit text s = s := by
  unfold on_submit
  simp only [hp, Bool.false_eq_true, if_false, if_neg ht, hget]

/-- Hint with an out-of-range level: state unchanged. -/
theorem use_hint_noemail (choice : Nat) (s : GState)
    (hp : s.paused = false)
    (hget : s.all_emails.get? s.current_level = none) :
    use_hint choice s = s := by
  unfold use_hint
  simp only [hp, Bool.false_eq_true, if_false, hget]

/-- A hint while paused is a silent no-op. -/
theorem use_hint_paused (choice : Nat) (s : GState) (hp : s.paused = true) :
    use_hint choice s = s := by
  unfold use_hint
  simp [hp]

/-- An unpaused hint: a no-op when everything is found, otherwise only the
score changes, by `max(0, score - min(20, 6 + 3*level))`. -/
theorem use_hint_eq (choice : Nat) (s : GState) (em : Email)
    (hp : s.paused = false)
    (hem : s.all_emails.get? s.current_level = some em) :
    use_hint choice s =
      if em.flags.filter (fun f => decide (f ∉ s.flags_found)) = [] then s
      else { s with
             score := max 0
               (s.score - min 20 (HINT_COST_BASE + (s.current_level : Int) * 3)) } := by
  have hem' : s.all_emails[s.current_level]? = some em := by
    rw [← List.get?_eq_getElem?]; exact hem
  unfold use_hint
  simp [hp, hem, hem']

/-- Resuming with time still on the clock: the countdown restarts from the
frozen value (ticking once immediately, as `start_timer` calls `_tick`). -/
theorem toggle_pause_resume (s : GState) (hp : s.paused = true)
    (htl : 0 < s.time_left) :
    toggle_pause s =
      { s with paused := false, time_left := s.time_left - 1,
               deadline := some (s.now + 1) } := by
  unfold toggle_pause start_timer start_timer_go tick_go stop_timer
  have h3 : ¬ (s.time_left ≤ (0 : Int)) := by omega
  simp [hp, h3]

/-- Pausing: only the `paused` flag and the pending callback change. -/
theorem toggle_pause_pause (s : GState) (hp : s.paused = false) :
    toggle_pause s = { s with paused := true, deadline := none } := by
  unfold toggle_pause stop_timer
  simp [hp]

/-- Level finalization never touches `lives` (the handler argument is only
reachable through `load_level`'s restarted tick, which always decrements). -/
theorem saveCont_lives (handler : GState → GState) (sk : Bool) (s : GState) :
    (saveCont handler sk s).lives = s.lives := by
  unfold saveCont
  cases hget : s.all_emails.get? s.current_level with
  | none => rfl
  | some cur =>
    simp only [load_go_eq, finish_game, stop_timer]
    split_ifs <;> rfl

/-- Level finalization never touches `score`. -/
theorem saveCont_score (handler : GState → GState) (sk : Bool) (s : GState) :
    (saveCont handler sk s).score = s.score := by
  unfold saveCont
  cases hget : s.all_emails.get? s.current_level with
  | none => rfl
  | some cur =>
    simp only [load_go_eq, finish_game, stop_timer]
    split_ifs <;> rfl

/-- Level finalization never touches `paused`. -/
theorem saveCont_paused (handler : GState → GState) (sk : Bool) (s : GState) :
    (saveCont handler sk s).paused = s.paused := by
  unfold saveCont
  cases hget : s.all_emails.get? s.current_level with
  | none => rfl
  | some cur =>
    simp only [load_go_eq, finish_game, stop_timer]
    split_ifs <;> rfl

/-- Level finalization never touches `total_levels`. -/
theorem saveCont_total (handler : GState → GState) (sk : Bool) (s : GState) :
    (saveCont handler sk s).total_levels = s.total_levels := by
  unfold saveCont
  cases hget : s.all_emails.get? s.current_level with
  | none => rfl
  | some cur =>
    simp only [load_go_eq, finish_game, stop_timer]
    split_ifs <;> rfl

/-- Level finalization appends exactly one result record. -/
theorem saveCont_results (handler : GState → GState) (sk : Bool) (s : GState)
    (cur : Email) (hget : s.all_emails.get? s.current_level = some cur) :
    (saveCont handler sk s).results = s.results ++
      [⟨cur.title, cur.text, s.flags_found,
        cur.flags.filter (fun f => decide (f ∉ s.flags_found)), sk⟩] := by
  unfold saveCont
  rw [hget]
  simp only [load_go_eq, finish_game, stop_timer]
  split_ifs <;> rfl

/-- The `skipped` flag influences only the recorded result, not how the
session advances. -/
theorem saveCont_skip_irrelevant (handler : GState → GState) (sk sk' : Bool)
    (s : GState) :
    (saveCont handler sk s).current_level = (saveCont handler sk' s).current_level
    ∧ (saveCont handler sk s).game_over = (saveCont handler sk' s).game_over
    ∧ (saveCont handler sk s).score = (saveCont handler sk' s).score
    ∧ (saveCont handler sk s).lives = (saveCont handler sk' s).lives
    ∧ (saveCont handler sk s).flags_found = (saveCont handler sk' s).flags_found := by
  unfold saveCont
  cases hget : s.all_emails.get? s.current_level with
  | none => exact ⟨rfl, rfl, rfl, rfl, rfl⟩
  | some cur =>
    simp only [load_go_eq, finish_game, stop_timer]
    split_ifs <;> exact ⟨rfl, rfl, rfl, rfl, rfl⟩

/-- The expiry cascade never touches `score`. -/
theorem timeUpF_score (f : Nat) (s : GState) : (timeUpF f s).score = s.score := by
  induction f generalizing s with
  | zero => rfl
  | succ f ih =>
    unfold timeUpF on_time_up_go
    rw [saveCont_score]

/-- The expiry cascade never touches `paused`. -/
theorem timeUpF_paused (f : Nat) (s : GState) : (timeUpF f s).paused = s.paused := by
  induction f generalizing s with
  | zero => rfl
  | succ f ih =>
    unfold timeUpF on_time_up_go
    rw [saveCont_paused]

/-- Method `toggle_pause` never changes the score, in either direction (even when
resuming at zero remaining time triggers the expiry path). -/
theorem toggle_pause_score (s : GState) : (toggle_pause s).score = s.score := by
  unfold toggle_pause start_timer start_timer_go tick_go stop_timer
  by_cases hp : s.paused
  · simp only [hp, if_true]
    split <;> [rfl; skip]
    split
    · rw [timeUpF_score]
    · rfl
  · simp [hp]

/-- Method `toggle_pause` always flips the `paused` flag. -/
theorem toggle_pause_paused (s : GState) : (toggle_pause s).paused = !s.paused := by
  unfold toggle_pause start_timer start_timer_go tick_go stop_timer
  by_cases hp : s.paused
  · simp only [hp, if_true]
    split
    · simp_all
    · split
      · rw [timeUpF_paused]; simp [hp]
      · simp [hp]
  · simp [hp]

/-! ## Session invariant (claim C8) -/

theorem pres_finish : Pres finish_game := by
  intro s hs
  exact ⟨hs, rfl⟩

theorem pres_tick_go (handler : GState → GState) (hh : Pres handler) :
    Pres (tick_go handler) := by
  intro s hs
  unfold tick_go
  split
  · exact ⟨hs, rfl⟩
  · split
    · exact hh s hs
    · exact ⟨hs, rfl⟩

theorem pres_load_go (handler : GState → GState) (hh : Pres handler) (idx : Nat) :
    ∀ s, GInv s → idx ≤ s.total_levels →
      GInv (load_level_go handler idx s)
      ∧ (load_level_go handler idx s).total_levels = s.total_levels := by
  intro s hs hidx
  rw [load_go_eq]
  split
  · exact ⟨⟨hs.1, hidx⟩, rfl⟩
  · split
    · exact ⟨⟨hs.1, hidx⟩, rfl⟩
    · exact ⟨⟨hs.1, hidx⟩, rfl⟩

theorem pres_saveCont (handler : GState → GState) (hh : Pres handler) (sk : Bool) :
    Pres (saveCont handler sk) := by
  intro s hs
  unfold saveCont
  cases hget : s.all_emails.get? s.current_level with
  | none => exact ⟨hs, rfl⟩
  | some cur =>
    simp only [stop_timer, finish_game]
    split
    · exact ⟨⟨hs.1, hs.2⟩, rfl⟩
    · split
      · exact ⟨⟨hs.1, hs.2⟩, rfl⟩
      · rename_i hlv htl
        have hidx : s.current_level + 1 ≤ s.total_levels := by
          simp only [not_le] at htl
          omega
        exact pres_load_go handler hh (s.current_level + 1) _ ⟨hs.1, hs.2⟩ hidx

theorem pres_timeUpF (f : Nat) : Pres (timeUpF f) := by
  induction f with
  | zero => intro s hs; exact ⟨hs, rfl⟩
  | succ f ih =>
    intro s hs
    unfold timeUpF on_time_up_go
    exact pres_saveCont (timeUpF f) ih true _ ⟨hs.1, hs.2⟩

theorem gained_nonneg (s : GState) : 0 ≤ gained s := by
  unfold gained speed_bonus
  have := le_max_left (0 : Int) (Int.floor (((s.pb_max : ℚ) - elapsed s) / 3))
  omega

theorem pres_on_submit (text : String) : Pres (on_submit text) := by
  intro s hs
  by_cases hp : s.paused
  · rw [on_submit_paused text s hp]; exact ⟨hs, rfl⟩
  · rw [Bool.not_eq_true] at hp
    by_cases ht : text.trim = ""
    · rw [on_submit_blank text s hp ht]; exact ⟨hs, rfl⟩
    · cases hget : s.all_emails.get? s.current_level with
      | none =>
        rw [on_submit_noemail text s hp ht hget]
        exact ⟨hs, rfl⟩
      | some email =>
        cases hm : loop_match s.flags_found text.trim email.flags with
        | none =>
          rw [on_submit_wrong text s email hp ht hget hm]
          refine ⟨⟨?_, hs.2⟩, rfl⟩
          show 0 ≤ max 0 (s.score - 3)
          have := le_max_left (0 : Int) (s.score - 3)
          omega
        | some matched =>
          rw [on_submit_matched text s email matched hp ht hget hm]
          have hg := gained_nonneg s
          have h0 := hs.1
          split
          · refine ⟨⟨?_, hs.2⟩, rfl⟩
            show 0 ≤ s.score + gained s + BONUS_PERFECT
            unfold BONUS_PERFECT
            omega
          · refine ⟨⟨?_, hs.2⟩, rfl⟩
            show 0 ≤ s.score + gained s
            omega

theorem pres_use_hint (choice : Nat) : Pres (use_hint choice) := by
  intro s hs
  by_cases hp : s.paused
  · rw [use_hint_paused choice s hp]; exact ⟨hs, rfl⟩
  · rw [Bool.not_eq_true] at hp
    cases hget : s.all_emails.get? s.current_level with
    | none =>
      rw [use_hint_noemail choice s hp hget]
      exact ⟨hs, rfl⟩
    | some email =>
      rw [use_hint_eq choice s email hp hget]
      split
      · exact ⟨hs, rfl⟩
      · refine ⟨⟨?_, hs.2⟩, rfl⟩
        show 0 ≤ max 0 (s.score - min 20 (HINT_COST_BASE + (s.current_level : Int) * 3))
        have := le_max_left (0 : Int)
          (s.score - min 20 (HINT_COST_BASE + (s.current_level : Int) * 3))
        omega

theorem pres_next_level : Pres next_level := by
  intro s hs
  unfold next_level
  split
  · exact ⟨hs, rfl⟩
  · exact pres_saveCont (timeUpF 3) (pres_timeUpF 3) false s hs

theorem pres_toggle_pause : Pres toggle_pause := by
  intro s hs
  unfold toggle_pause start_timer
  split
  · unfold start_timer_go stop_timer
    exact pres_tick_go (timeUpF 3) (pres_timeUpF 3) _ ⟨hs.1, hs.2⟩
  · exact ⟨hs, rfl⟩

theorem pres_restart (shuffled : List Email) : Pres (restart_game shuffled) := by
  intro s hs
  unfold restart_game load_level
  refine pres_load_go (timeUpF 3) (pres_timeUpF 3) 0 _ ⟨?_, ?_⟩ ?_
  · exact le_refl 0
  · exact Nat.zero_le _
  · exact Nat.zero_le _

theorem pres_tick : Pres tick := by
  unfold tick on_time_up
  exact pres_tick_go (timeUpF 4) (pres_timeUpF 4)

theorem pres_fireDue (fuel : Nat) (target : ℚ) : Pres (fireDue fuel target) := by
  induction fuel generalizing target with
  | zero => intro s hs; exact ⟨hs, rfl⟩
  | succ f ih =>
    intro s hs
    unfold fireDue
    cases hd : s.deadline with
    | none => exact ⟨hs, rfl⟩
    | some d =>
      dsimp only
      by_cases hdt : d ≤ target
      · rw [if_pos hdt]
        have h1 := pres_tick { s with now := d, deadline := none } ⟨hs.1, hs.2⟩
        have h2 := ih target _ h1.1
        exact ⟨h2.1, h2.2.trans h1.2⟩
      · rw [if_neg hdt]
        exact ⟨hs, rfl⟩

theorem pres_waitFn (dur : ℚ) : Pres (waitFn dur) := by
  intro s hs
  unfold waitFn
  split
  · exact ⟨hs, rfl⟩
  · exact pres_fireDue _ _ s hs

theorem pres_stepEv (e : Ev) : Pres (fun s => stepEv s e) := by
  cases e with
  | wait dur => exact pres_waitFn dur
  | submit text => exact pres_on_submit text
  | hint choice => exact pres_use_hint choice
  | next => exact pres_next_level
  | pauseToggle => exact pres_toggle_pause
  | restart shuffled => exact pres_restart shuffled

theorem ginv_runEvents (evs : List Ev) :
    ∀ s, GInv s → GInv (runEvents s evs) := by
  induction evs with
  | nil => intro s hs; exact hs
  | cons e rest ih =>
    intro s hs
    unfold runEvents
    simp only [List.foldl_cons]
    exact ih (stepEv s e) (pres_stepEv e s hs).1

theorem ginv_initGame (sampled : List Email) : GInv (initGame sampled) := by
  unfold initGame load_level
  exact (pres_load_go (timeUpF 3) (pres_timeUpF 3) 0 _ ⟨le_refl 0, Nat.zero_le _⟩
    (Nat.zero_le _)).1

end PhishGame

namespace PhishGame

/-- A duplicate-free subset of equal length exhausts a duplicate-free list. -/
theorem all_found_of_length (found flags : List String)
    (hfn : found.Nodup) (hsub : ∀ f ∈ found, f ∈ flags)
    (hlen : found.length = flags.length) :
    ∀ f ∈ flags, f ∈ found := by
  have hsp : List.Subperm found flags := hfn.subperm (fun x hx => hsub x hx)
  have hperm : List.Perm found flags := hsp.perm_of_length_le (by omega)
  intro f hf
  exact hperm.symm.subset hf

/-- Once every template flag is in `flags_found`, any further sequence of
guesses leaves the found flags unchanged and can only lower the score. -/
theorem submit_after_complete (em : Email) :
    ∀ (texts : List String) (s : GState),
      s.paused = false →
      s.all_emails.get? s.current_level = some em →
      (∀ f ∈ em.flags, f ∈ s.flags_found) →
      0 ≤ s.score →
      (texts.foldl (fun st t => on_submit t st) s).flags_found = s.flags_found
      ∧ (texts.foldl (fun st t => on_submit t st) s).score ≤ s.score := by
  intro texts
  induction texts with
  | nil => intro s _ _ _ _; exact ⟨rfl, le_refl _⟩
  | cons t rest ih =>
    intro s hp hem hall hsc
    simp only [List.foldl_cons]
    by_cases ht : t.trim = ""
    · rw [on_submit_blank t s hp ht]
      exact ih s hp hem hall hsc
    · have hm : loop_match s.flags_found t.trim em.flags = none :=
        loop_match_none_of_all_found _ _ _ hall
      rw [on_submit_wrong t s em hp ht hem hm]
      have hsc' : (0 : Int) ≤ max 0 (s.score - 3) := le_max_left _ _
      obtain ⟨h1, h2⟩ := ih { s with score := max 0 (s.score - 3) } hp hem hall hsc'
      refine ⟨h1, h2.trans ?_⟩
      show max 0 (s.score - 3) ≤ s.score
      omega

/-- Both branches of an `if` agreeing on `flags_found`. -/
theorem ite_flags (c : Prop) [Decidable c] (a b : GState) (x : List String)
    (h1 : a.flags_found = x) (h2 : b.flags_found = x) :
    (if c then a else b).flags_found = x := by
  split <;> assumption

end PhishGame

namespace PhishGame

set_option maxRecDepth 100000

/-! ## Claim C1 — speed bonus and the definition of "elapsed" -/

/-- C1, counterexample.  The claim computes the speed bonus from
`elapsedSeconds = timeLimit − timeRemaining` ("time spent paused does not
count").  In the code, `elapsed = time.time() − start_time` is wall-clock time
and paused time *does* count: after pausing for 9 s on level 0 and matching
`"verify"` half a second after resuming (`time_left = 38`, wall clock 9.5 s),
the code awards `10 + ⌊(40 − 9.5)/3⌋ = 20` points, while the claim's formula
`10 + max(0, ⌊(40 − (40 − 38))/3⌋)` demands 22. -/
theorem C1_counterexample :
    c1pre.time_left = 38 ∧ c1pre.pb_max = 40 ∧ c1pre.score = 0
    ∧ (on_submit "verify" c1pre).score - c1pre.score = 20
    ∧ 10 + max 0 (Int.floor
        (((c1pre.pb_max : ℚ) - ((c1pre.pb_max : ℚ) - (c1pre.time_left : ℚ))) / 3)) = 22
    ∧ (20 : Int) ≠ 22 := by
  decide!

/-- C1, amended.  Every successful guess gains
`10 + max(0, ⌊(timeLimit − elapsedSeconds)/3⌋)` points (plus the perfect bonus
when it completes the level), where `elapsedSeconds = now − start_time` is the
*wall-clock* time since the level started — pauses included — not
`timeLimit − timeRemaining`. -/
theorem C1_speed_bonus_wall_clock (s : GState) (em : Email) (text f : String)
    (hp : s.paused = false)
    (hem : s.all_emails.get? s.current_level = some em)
    (hm : loop_match s.flags_found text.trim em.flags = some f) :
    (on_submit text s).score =
      s.score + gained s
        + (if s.flags_found.length + 1 = em.flags.length then BONUS_PERFECT else 0)
    ∧ gained s = 10 + max 0 (Int.floor (((s.pb_max : ℚ) - (s.now - s.start_time)) / 3)) := by
  have ht : ¬ text.trim = "" := by
    intro h
    rw [h, loop_match_empty_text] at hm
    exact Option.noConfusion hm
  constructor
  · rw [on_submit_matched text s em f hp ht hem hm]
    by_cases hc : s.flags_found.length + 1 = em.flags.length
    · rw [if_pos hc, if_pos hc]
    · rw [if_neg hc, if_neg hc]
      show s.score + gained s = s.score + gained s + 0
      omega
  · rfl

/-- C1 witness: the amended statement evaluated on the paused-then-resumed
scenario (`gained c1pre = 10 + ⌊30.5/3⌋ = 20`, no perfect bonus). -/
theorem C1_speed_bonus_wall_clock_witness :
    (on_submit "verify" c1pre).score =
      c1pre.score + gained c1pre
        + (if c1pre.flags_found.length + 1 = EMAIL0.flags.length then BONUS_PERFECT else 0)
    ∧ gained c1pre =
        10 + max 0 (Int.floor (((c1pre.pb_max : ℚ) - (c1pre.now - c1pre.start_time)) / 3)) :=
  C1_speed_bonus_wall_clock c1pre EMAIL0 "verify" "verify"
    (by decide!) (by decide!) (by decide!)

/-! ## Claim C2 — construction never fails; it clamps -/

/-- C2, counterexample.  The claim says construction fails fast with a
configuration error when fewer templates are supplied than the requested
total of 5 levels.  In the code (`__init__`, lines 173-174) there is no
validation at all: with only two templates the session is constructed
normally with `total_levels = min(5, 2) = 2`, level 0 active. -/
theorem C2_counterexample :
    (initGame [EMAIL0, EMAIL1]).total_levels = 2
    ∧ (initGame [EMAIL0, EMAIL1]).game_over = false
    ∧ (initGame [EMAIL0, EMAIL1]).current_level = 0
    ∧ (initGame [EMAIL0, EMAIL1]).lives = 3 := by
  decide!

/-- C2, amended.  Session construction never aborts: for every sampled
template list it produces a session with `total_levels = min 5 (number of
templates)`, score 0 and 3 lives; a shortfall of templates silently reduces
the number of levels, and the base time limit is the fixed constant 40
(no non-positive-time check exists). -/
theorem C2_construction_clamps (sampled : List Email) :
    (initGame sampled).total_levels = min 5 sampled.length
    ∧ (initGame sampled).score = 0
    ∧ (initGame sampled).lives = 3
    ∧ BASE_TIME = 40 := by
  unfold initGame load_level
  rw [load_go_eq]
  split_ifs <;> exact ⟨rfl, rfl, rfl, rfl⟩

/-! ## Claim C3 — emptiness is checked before trimming -/

/-- C3, counterexample.  The claim says a whitespace-only guess matches
nothing.  The code checks emptiness *before* trimming, and the trimmed-empty
guess is a Python-substring of every token, so `fuzzy_match(" ", "anything")`
is true. -/
theorem C3_counterexample : fuzzy_match " " "anything" = true := by
  decide!

/-- C3, amended.  `fuzzy_match` returns false when either *raw* operand is
the empty string; but an operand that is merely empty after trimming is not
rejected: a whitespace-only guess matches every nonempty token via the
empty-substring rule. -/
theorem C3_empty_guard :
    (∀ t : String, fuzzy_match "" t = false)
    ∧ (∀ g : String, fuzzy_match g "" = false)
    ∧ (∀ t : String, t ≠ "" → fuzzy_match " " t = true) := by
  refine ⟨fuzzy_match_empty_left, fuzzy_match_empty_right, ?_⟩
  intro t ht
  unfold fuzzy_match
  have h1 : ¬ ((" " = "" || t = "") = true) := by
    simp [ht]
  rw [if_neg h1]
  have hu : " ".toLower.trim = "" := by decide!
  have h2 : ∀ l : List Char, strContains l ("".toList) = true :=
    fun l => strContains_nil l
  simp only [hu, h2, Bool.or_true, Bool.true_or, if_true]

/-- C3 witness: the empty-operand clauses and the whitespace clause
evaluated at concrete strings. -/
theorem C3_empty_guard_witness :
    fuzzy_match "" "verify" = false
    ∧ fuzzy_match "verify" "" = false
    ∧ fuzzy_match " " "verify" = true :=
  ⟨C3_empty_guard.1 "verify", C3_empty_guard.2.1 "verify",
    C3_empty_guard.2.2 "verify" (by decide!)⟩

end PhishGame

namespace PhishGame

set_option maxRecDepth 100000

/-! ## Claim C4 — the perfect bonus is awarded exactly once -/

/-- C4.  On a level whose found list is a duplicate-free subset of the
template's flags (which the submit loop maintains): (i) the guess that first makes
`flags_found` as large as the flag set adds the perfect bonus on top of the
speed-scored gain and stops the timer; (ii) a successful guess that does not
complete the set adds no bonus and leaves the timer alone; (iii) once the set
is complete, no sequence of further guesses changes `flags_found` or raises
the score — the bonus cannot be awarded a second time. -/
theorem C4_perfect_bonus_once (s : GState) (em : Email)
    (hem : s.all_emails.get? s.current_level = some em)
    (hp : s.paused = false)
    (hsub : ∀ f ∈ s.flags_found, f ∈ em.flags)
    (hfn : s.flags_found.Nodup)
    (hsc : 0 ≤ s.score) :
    (∀ text f, loop_match s.flags_found text.trim em.flags = some f →
        s.flags_found.length + 1 = em.flags.length →
        (on_submit text s).score = s.score + gained s + BONUS_PERFECT
        ∧ (on_submit text s).deadline = none
        ∧ (on_submit text s).flags_found = s.flags_found ++ [f])
    ∧ (∀ text f, loop_match s.flags_found text.trim em.flags = some f →
        s.flags_found.length + 1 ≠ em.flags.length →
        (on_submit text s).score = s.score + gained s
        ∧ (on_submit text s).deadline = s.deadline)
    ∧ (s.flags_found.length = em.flags.length →
        ∀ texts : List String,
          (texts.foldl (fun st t => on_submit t st) s).flags_found = s.flags_found
          ∧ (texts.foldl (fun st t => on_submit t st) s).score ≤ s.score) := by
  refine ⟨?_, ?_, ?_⟩
  · intro text f hm hc
    have ht : ¬ text.trim = "" := by
      intro h
      rw [h, loop_match_empty_text] at hm
      exact Option.noConfusion hm
    rw [on_submit_matched text s em f hp ht hem hm, if_pos hc]
    exact ⟨rfl, rfl, rfl⟩
  · intro text f hm hc
    have ht : ¬ text.trim = "" := by
      intro h
      rw [h, loop_match_empty_text] at hm
      exact Option.noConfusion hm
    rw [on_submit_matched text s em f hp ht hem hm, if_neg hc]
    exact ⟨rfl, rfl⟩
  · intro hlen texts
    exact submit_after_complete em texts s hp hem
      (all_found_of_length s.flags_found em.flags hfn hsub hlen) hsc

/-- C4 witness: on `c4state` (five of template 0's six flags found), typing
`"Dear Customer"` completes the set: `+ gained + 15`, timer stopped; and from
the completed state any further guess leaves the flags alone. -/
theorem C4_perfect_bonus_once_witness :
    ((on_submit "Dear Customer" c4state).score
        = c4state.score + gained c4state + BONUS_PERFECT
      ∧ (on_submit "Dear Customer" c4state).deadline = none
      ∧ (on_submit "Dear Customer" c4state).flags_found
          = c4state.flags_found ++ ["Dear Customer"]) :=
  (C4_perfect_bonus_once c4state EMAIL0 (by decide!) (by decide!) (by decide!)
      (by decide!) (by decide!)).1
    "Dear Customer" "Dear Customer" (by decide!) (by decide!)

/-! ## Claim C5 — authoring order, first match wins, found flags are skipped -/

/-- C5.  The matching loop of `submitGuess` is exactly `List.find?` of "not
yet found and fuzzy-matching" over the template's flags in authoring order;
a flag already in `flags_found` is never the match again; and the matched
flag is what gets appended to `flags_found`. -/
theorem C5_first_match_wins (s : GState) (em : Email) (text : String)
    (hp : s.paused = false)
    (hem : s.all_emails.get? s.current_level = some em) :
    loop_match s.flags_found text.trim em.flags
      = em.flags.find? (fun f => decide (f ∉ s.flags_found) && fuzzy_match text.trim f)
    ∧ (∀ f ∈ s.flags_found, loop_match s.flags_found text.trim em.flags ≠ some f)
    ∧ (∀ f, loop_match s.flags_found text.trim em.flags = some f →
        (on_submit text s).flags_found = s.flags_found ++ [f]) := by
  refine ⟨loop_match_eq_find _ _ _, ?_, ?_⟩
  · intro f hf heq
    exact (loop_match_some _ _ _ _ heq).2.1 hf
  · intro f hm
    have ht : ¬ text.trim = "" := by
      intro h
      rw [h, loop_match_empty_text] at hm
      exact Option.noConfusion hm
    rw [on_submit_matched text s em f hp ht hem hm]
    exact ite_flags _ _ _ _ rfl rfl

/-- C5 witness: guessing `"verify-account"` on a fresh session matches the
*earlier* flag `"verify"` (substring rule, authoring order) and appends it. -/
theorem C5_first_match_wins_witness :
    loop_match (initGame EMAILS).flags_found "verify-account".trim EMAIL0.flags
      = EMAIL0.flags.find?
          (fun f => decide (f ∉ (initGame EMAILS).flags_found)
            && fuzzy_match "verify-account".trim f)
    ∧ (on_submit "verify-account" (initGame EMAILS)).flags_found
        = (initGame EMAILS).flags_found ++ ["verify"] :=
  ⟨(C5_first_match_wins (initGame EMAILS) EMAIL0 "verify-account"
      (by decide!) (by decide!)).1,
   (C5_first_match_wins (initGame EMAILS) EMAIL0 "verify-account"
      (by decide!) (by decide!)).2.2 "verify" (by decide!)⟩

/-! ## Claim C6 — timer expiry: one life, one skipped result, normal advance -/

/-- C6.  `on_time_up` decrements `lives` by exactly one and then finalizes
/advances via the same `save_result_and_continue` an explicit advance uses:
the appended `LevelResult` has `skipped = true`, `found` = the discovery-order
found list, `missed` = exactly the template flags not yet found; and the
`skipped` flag has no influence on where the session goes next (same next
`current_level`, same `game_over`). -/
theorem C6_time_up (s : GState) (em : Email)
    (hem : s.all_emails.get? s.current_level = some em) :
    on_time_up s = save_result_and_continue true { s with lives := s.lives - 1 }
    ∧ (on_time_up s).lives = s.lives - 1
    ∧ (on_time_up s).results = s.results ++
        [⟨em.title, em.text, s.flags_found,
          em.flags.filter (fun f => decide (f ∉ s.flags_found)), true⟩]
    ∧ (save_result_and_continue true { s with lives := s.lives - 1 }).current_level
        = (save_result_and_continue false { s with lives := s.lives - 1 }).current_level
    ∧ (save_result_and_continue true { s with lives := s.lives - 1 }).game_over
        = (save_result_and_continue false { s with lives := s.lives - 1 }).game_over := by
  refine ⟨rfl, ?_, ?_, ?_, ?_⟩
  · show (saveCont (timeUpF 3) true { s with lives := s.lives - 1 }).lives = s.lives - 1
    rw [saveCont_lives]
  · show (saveCont (timeUpF 3) true { s with lives := s.lives - 1 }).results = _
    rw [saveCont_results (timeUpF 3) true { s with lives := s.lives - 1 } em hem]
  · exact (saveCont_skip_irrelevant (timeUpF 3) true false _).1
  · exact (saveCont_skip_irrelevant (timeUpF 3) true false _).2.1

/-- C6 witness: expiry on a fresh session (no flags found yet) costs one of
the three lives and records all six flags as missed, `skipped = true`. -/
theorem C6_time_up_witness :
    (on_time_up (initGame EMAILS)).lives = (initGame EMAILS).lives - 1
    ∧ (on_time_up (initGame EMAILS)).results = (initGame EMAILS).results ++
        [⟨EMAIL0.title, EMAIL0.text, (initGame EMAILS).flags_found,
          EMAIL0.flags.filter (fun f => decide (f ∉ (initGame EMAILS).flags_found)),
          true⟩] :=
  ⟨(C6_time_up (initGame EMAILS) EMAIL0 (by decide!)).2.1,
   (C6_time_up (initGame EMAILS) EMAIL0 (by decide!)).2.2.1⟩

/-- Method `on_submit` has an effect on `flags_found` that is independent of the score. -/
theorem on_submit_flags_of_score (text : String) (s : GState) (sc : Int) :
    (on_submit text { s with score := sc }).flags_found
      = (on_submit text s).flags_found := by
  by_cases hp : s.paused = true
  · rw [on_submit_paused text ({ s with score := sc }) hp, on_submit_paused text s hp]
  · rw [Bool.not_eq_true] at hp
    by_cases ht : text.trim = ""
    · rw [on_submit_blank text ({ s with score := sc }) hp ht,
        on_submit_blank text s hp ht]
    · cases hget : s.all_emails.get? s.current_level with
      | none =>
        rw [on_submit_noemail text ({ s with score := sc }) hp ht hget,
          on_submit_noemail text s hp ht hget]
      | some em =>
        cases hm : loop_match s.flags_found text.trim em.flags with
        | none =>
          rw [on_submit_wrong text ({ s with score := sc }) em hp ht hget hm,
            on_submit_wrong text s em hp ht hget hm]
        | some f =>
          rw [on_submit_matched text ({ s with score := sc }) em f hp ht hget hm,
            on_submit_matched text s em f hp ht hget hm]
          rw [ite_flags _ _ _ (s.flags_found ++ [f]) rfl rfl,
            ite_flags _ _ _ (s.flags_found ++ [f]) rfl rfl]

/-! ## Claim C7 — hints cost points, reveal without crediting -/

/-- C7.  With at least one unfound flag, `use_hint` changes *only* the score,
by `max(0, score − min(20, 6 + 3·level))`, and the revealed token is an
unfound template flag that is *not* added to `flags_found`; with nothing left
to hint, the state is unchanged; and a hint never affects what a later guess
matches (`gained` and the flag progression of `on_submit` are untouched), so
the hinted flag can still be typed for points and the perfect bonus. -/
theorem C7_hint (choice : Nat) (s : GState) (em : Email)
    (hp : s.paused = false)
    (hem : s.all_emails.get? s.current_level = some em) :
    (em.flags.filter (fun f => decide (f ∉ s.flags_found)) ≠ [] →
      use_hint choice s = { s with
        score := max 0 (s.score - min 20 (HINT_COST_BASE + (s.current_level : Int) * 3)) }
      ∧ ∃ h', hint_token choice s = some h' ∧ h' ∈ em.flags ∧ h' ∉ s.flags_found)
    ∧ (em.flags.filter (fun f => decide (f ∉ s.flags_found)) = [] →
        use_hint choice s = s)
    ∧ gained (use_hint choice s) = gained s
    ∧ (∀ text, (on_submit text (use_hint choice s)).flags_found
        = (on_submit text s).flags_found) := by
  have hrem : remaining_flags s = em.flags.filter (fun f => decide (f ∉ s.flags_found)) := by
    unfold remaining_flags
    rw [hem]
  refine ⟨?_, ?_, ?_, ?_⟩
  · intro hne
    constructor
    · rw [use_hint_eq choice s em hp hem, if_neg hne]
    · have hlen : 0 < (remaining_flags s).length := by
        rw [hrem]
        exact List.length_pos.mpr hne
      have hmod : choice % (remaining_flags s).length < (remaining_flags s).length :=
        Nat.mod_lt _ hlen
      have hsub2 : ∀ y ∈ remaining_flags s, y ∈ em.flags ∧ y ∉ s.flags_found := by
        intro y hy
        rw [hrem] at hy
        have h2 := List.mem_filter.mp hy
        exact ⟨h2.1, of_decide_eq_true h2.2⟩
      have hmem := List.get_mem (remaining_flags s)
        (choice % (remaining_flags s).length) hmod
      refine ⟨(remaining_flags s).get ⟨choice % (remaining_flags s).length, hmod⟩,
        ?_, (hsub2 _ hmem).1, (hsub2 _ hmem).2⟩
      unfold hint_token
      exact List.get?_eq_get hmod
  · intro he
    rw [use_hint_eq choice s em hp hem, if_pos he]
  · rw [use_hint_eq choice s em hp hem]
    split <;> rfl
  · intro text
    rw [use_hint_eq choice s em hp hem]
    split
    · rfl
    · exact on_submit_flags_of_score text s _

/-- C7 witness: a hint on a fresh session (level 0) costs
`min(20, 6 + 0) = 6`, i.e. `score = max(0, 0 − 6) = 0`, reveals an unfound
flag, and leaves the next guess's flag progression unchanged. -/
theorem C7_hint_witness :
    use_hint 0 (initGame EMAILS) = { initGame EMAILS with
      score := max 0 ((initGame EMAILS).score
        - min 20 (HINT_COST_BASE + ((initGame EMAILS).current_level : Int) * 3)) }
    ∧ (∀ text, (on_submit text (use_hint 0 (initGame EMAILS))).flags_found
        = (on_submit text (initGame EMAILS)).flags_found) :=
  ⟨((C7_hint 0 (initGame EMAILS) EMAIL0 (by decide!) (by decide!)).1 (by decide!)).1,
   (C7_hint 0 (initGame EMAILS) EMAIL0 (by decide!) (by decide!)).2.2.2⟩

end PhishGame

namespace PhishGame

set_option maxRecDepth 100000

/-! ## Claim C8 — global invariants and the penalty formulas -/

/-- C8.  After any event sequence from construction (guesses, hints,
advances, timer ticks/expiries, pause toggles, restarts) the score is never
negative and `0 ≤ currentLevelIndex ≤ totalLevels` (the lower bound is the
index's type); a wrong guess applies `score = max(0, score − 3)` and a hint
applies `score = max(0, score − min(20, 6 + 3·level))`. -/
theorem C8_invariants :
    (∀ (sampled : List Email) (evs : List Ev),
        0 ≤ (runEvents (initGame sampled) evs).score
        ∧ (runEvents (initGame sampled) evs).current_level
            ≤ (runEvents (initGame sampled) evs).total_levels)
    ∧ (∀ (s : GState) (em : Email) (text : String),
        s.paused = false → ¬ text.trim = "" →
        s.all_emails.get? s.current_level = some em →
        loop_match s.flags_found text.trim em.flags = none →
        (on_submit text s).score = max 0 (s.score - 3))
    ∧ (∀ (s : GState) (em : Email) (choice : Nat),
        s.paused = false →
        s.all_emails.get? s.current_level = some em →
        em.flags.filter (fun f => decide (f ∉ s.flags_found)) ≠ [] →
        (use_hint choice s).score =
          max 0 (s.score - min 20 (HINT_COST_BASE + (s.current_level : Int) * 3))) := by
  refine ⟨?_, ?_, ?_⟩
  · intro sampled evs
    exact ginv_runEvents evs (initGame sampled) (ginv_initGame sampled)
  · intro s em text hp ht hem hm
    rw [on_submit_wrong text s em hp ht hem hm]
  · intro s em choice hp hem hne
    rw [use_hint_eq choice s em hp hem, if_neg hne]

/-- C8 witness: the invariant on a concrete run (wrong guess, hint, pause,
time passing, advance, restart) and the two penalty formulas at the fresh
session (where the unmatched guess `"qqqq"` costs `max(0, 0−3) = 0`). -/
theorem C8_invariants_witness :
    (0 ≤ (runEvents (initGame EMAILS)
          [.submit "qqqq", .hint 2, .wait 7, .pauseToggle, .pauseToggle,
           .next, .submit "reset", .restart EMAILS]).score
      ∧ (runEvents (initGame EMAILS)
          [.submit "qqqq", .hint 2, .wait 7, .pauseToggle, .pauseToggle,
           .next, .submit "reset", .restart EMAILS]).current_level
          ≤ (runEvents (initGame EMAILS)
          [.submit "qqqq", .hint 2, .wait 7, .pauseToggle, .pauseToggle,
           .next, .submit "reset", .restart EMAILS]).total_levels)
    ∧ (on_submit "qqqq" (initGame EMAILS)).score = max 0 ((initGame EMAILS).score - 3)
    ∧ (use_hint 0 (initGame EMAILS)).score =
        max 0 ((initGame EMAILS).score
          - min 20 (HINT_COST_BASE + ((initGame EMAILS).current_level : Int) * 3)) :=
  ⟨C8_invariants.1 EMAILS _,
   C8_invariants.2.1 (initGame EMAILS) EMAIL0 "qqqq"
     (by decide!) (by decide!) (by decide!) (by decide!),
   C8_invariants.2.2 (initGame EMAILS) EMAIL0 0
     (by decide!) (by decide!) (by decide!)⟩

/-! ## Claim C9 — pause/resume -/

/-- C9, counterexample.  The claim says resuming never changes the flags
found.  If the countdown already reached 0 while the pending expiry tick was
cancelled by pausing, resuming immediately fires the expiry path: one life is
lost, a skipped result is recorded, and `flags_found` is reset for the next
level — here from `["verify"]` to `[]`. -/
theorem C9_counterexample :
    c9pre.paused = true
    ∧ c9pre.time_left = 0
    ∧ c9pre.flags_found = ["verify"]
    ∧ (toggle_pause c9pre).flags_found = []
    ∧ (toggle_pause c9pre).lives = c9pre.lives - 1
    ∧ (toggle_pause c9pre).results.map (fun r => (r.found, r.skipped))
        = [(["verify"], true)]
    ∧ (toggle_pause c9pre).score = c9pre.score := by
  decide!

/-- C9, amended.  `togglePause` always flips `paused` and never changes the
score.  Pausing changes nothing but the flag and the pending tick; resuming
with `time_left > 0` restarts the countdown from the frozen remaining time
without touching score or flags.  (Resuming with `time_left = 0` instead
triggers the expiry path at once, which may reset the flags — the
counterexample.)  While paused, `submitGuess` and `useHint` are silent
no-ops. -/
theorem C9_pause_effects :
    (∀ s, (toggle_pause s).score = s.score)
    ∧ (∀ s, (toggle_pause s).paused = !s.paused)
    ∧ (∀ s, s.paused = false →
        toggle_pause s = { s with paused := true, deadline := none })
    ∧ (∀ s, s.paused = true → 0 < s.time_left →
        toggle_pause s = { s with paused := false, time_left := s.time_left - 1,
                                  deadline := some (s.now + 1) })
    ∧ (∀ s text, s.paused = true → on_submit text s = s)
    ∧ (∀ s choice, s.paused = true → use_hint choice s = s) := by
  exact ⟨toggle_pause_score, toggle_pause_paused, toggle_pause_pause,
    toggle_pause_resume, fun s text hp => on_submit_paused text s hp,
    fun s choice hp => use_hint_paused choice s hp⟩

/-- C9 witness: pausing a fresh session, resuming it one second in, and the
no-op of guessing or hinting while paused, all on concrete states. -/
theorem C9_pause_effects_witness :
    toggle_pause (initGame EMAILS)
      = { initGame EMAILS with paused := true, deadline := none }
    ∧ toggle_pause (toggle_pause (initGame EMAILS))
        = { toggle_pause (initGame EMAILS) with
            paused := false,
            time_left := (toggle_pause (initGame EMAILS)).time_left - 1,
            deadline := some ((toggle_pause (initGame EMAILS)).now + 1) }
    ∧ on_submit "verify" (toggle_pause (initGame EMAILS))
        = toggle_pause (initGame EMAILS)
    ∧ use_hint 0 (toggle_pause (initGame EMAILS)) = toggle_pause (initGame EMAILS) :=
  ⟨C9_pause_effects.2.2.1 (initGame EMAILS) (by decide!),
   C9_pause_effects.2.2.2.1 (toggle_pause (initGame EMAILS)) (by decide!) (by decide!),
   C9_pause_effects.2.2.2.2.1 (toggle_pause (initGame EMAILS)) "verify" (by decide!),
   C9_pause_effects.2.2.2.2.2 (toggle_pause (initGame EMAILS)) 0 (by decide!)⟩

/-! ## Claim C10 — resume restarts the timer even on a completed level -/

/-- C10.  After a perfect completion of level 0 (all six flags found, timer
stopped by the perfect-bonus branch), pausing and resuming unconditionally
restarts the countdown from the frozen remaining time (`38` after the
resume tick, next tick scheduled); letting it run out then decrements
`lives` from 3 to 2 and appends `LevelResult{found = all six flags,
missed = [], skipped = true}` for the already-solved level, advancing to
level 1. -/
theorem C10_resume_after_perfect :
    c10solved.flags_found.length = EMAIL0.flags.length
    ∧ c10solved.deadline = none
    ∧ c10solved.lives = 3
    ∧ c10solved.results = []
    ∧ c10resumed.paused = false
    ∧ c10resumed.deadline = some 1
    ∧ c10resumed.time_left = 38
    ∧ c10expired.lives = 2
    ∧ c10expired.results.map (fun r => (r.found, r.missed, r.skipped))
        = [(EMAIL0.flags, [], true)]
    ∧ c10expired.current_level = 1 := by
  decide!

end PhishGame
